import Mathlib

/-!
Verification development for the economy / turn-resolution core of a
turn-based colony-logistics game (single Rust source file `src/main.rs`).

The Rust core is shallowly embedded:
* `HashMap`s become association lists with a fixed iteration order (the
  source relies on `std::collections::HashMap` iteration order, which is
  arbitrary; the spec leaves all such tie-breaks unspecified, so a fixed
  list order is one legal instance).
* `u32` quantities become `Nat`; quantities in this program stay far below
  `2^32` (per-stockpile amounts are capped at 100 and per-call amounts are
  asserted `<= 100`), so no modular wrap can occur on the paths modelled,
  except for `u32` subtraction below zero, which is a Rust overflow panic
  and is modelled as `none`.
* panicking operations (`assert!`, `expect`, `unreachable!`, arithmetic
  underflow) are modelled by returning `none`; an early `return` from the
  `turn` system is modelled by returning the partially mutated state.
-/

set_option maxHeartbeats 1000000

namespace LD54

/-- Node identity (`struct NodeId(usize)` in the source). -/
abbrev NodeId := Nat

/-- Group identity (`struct GroupId(usize)` in the source). -/
abbrev GroupId := Nat

/-- Resource kinds (`enum ResourceVariant`). -/
inductive ResourceVariant where
  | power
  | rocketFuel
  | food
  | material
  | fusionFuel
deriving DecidableEq, Repr

/-- Enumeration of all resource kinds, used to model iteration over the
keys of a `HashMap<ResourceVariant, u32>`. -/
def allVariants : List ResourceVariant :=
  [ResourceVariant.power, ResourceVariant.rocketFuel, ResourceVariant.food,
   ResourceVariant.material, ResourceVariant.fusionFuel]

/-- Construction kinds (`enum ConstructionVariant`). -/
inductive ConstructionVariant where
  | solarField
  | atmosphereHarvester
  | chemicalPlant
  | planetFarm
  | asteroidMine
  | quarry
  | powerPlant
deriving DecidableEq, Repr

/-- Occupant of a node (`enum NodeOccupant`). -/
inductive NodeOccupant where
  | construction (var : ConstructionVariant) (cooldown : Nat)
  | stockpile (var : ResourceVariant) (amt : Nat)
deriving DecidableEq, Repr

/-- Constant `MAX_STOCKPILE: u32 = 100`. -/
def MAX_STOCKPILE : Nat := 100

/-- A bunch of resources (`struct Bunch { res: HashMap<ResourceVariant, u32> }`).
The hash map is modelled as a function to `Option Nat`: `none` means the
key is absent, which the source distinguishes from a stored amount of 0. -/
structure Bunch where
  res : ResourceVariant → Option Nat

namespace Bunch

/-- Model of `Bunch::default()`: the empty map. -/
def empty : Bunch := ⟨fun _ => none⟩

/-- Model of `Bunch::single(var, amt)`: a one-entry map. -/
def single (var : ResourceVariant) (amt : Nat) : Bunch :=
  ⟨fun v => if v = var then some amt else none⟩

/-- Model of `Bunch::contains(&self, oth)`: every entry stored in `oth`
must be matched by an entry stored in `self` with at least that amount; a
key absent from `self` fails outright (`let Some(cur) = ... else return false`). -/
def contains (self oth : Bunch) : Bool :=
  allVariants.all fun v =>
    match oth.res v with
    | none => true
    | some amt =>
      match self.res v with
      | none => false
      | some cur => decide (amt ≤ cur)

/-- Model of `impl Add for Bunch`: pointwise sum, new kinds inserted. -/
def add (a b : Bunch) : Bunch :=
  ⟨fun v =>
    match a.res v, b.res v with
    | some x, some y => some (x + y)
    | some x, none => some x
    | none, some y => some y
    | none, none => none⟩

/-- Model of iterating `self.res.iter()`: the entries physically present,
listed in the fixed `allVariants` order. -/
def entries (a : Bunch) : List (ResourceVariant × Nat) :=
  allVariants.filterMap fun v => (a.res v).map fun amt => (v, amt)

end Bunch

namespace ConstructionVariant

/-- Model of `ConstructionVariant::get_material_cost`. -/
def get_material_cost : ConstructionVariant → Nat
  | solarField => 5
  | atmosphereHarvester => 20
  | chemicalPlant => 3
  | planetFarm => 10
  | asteroidMine => 2
  | quarry => 5
  | powerPlant => 5

/-- Model of `ConstructionVariant::request_resources`. -/
def request_resources : ConstructionVariant → Bunch
  | solarField => Bunch.empty
  | atmosphereHarvester => Bunch.single ResourceVariant.power 50
  | chemicalPlant => Bunch.single ResourceVariant.material 2
  | planetFarm => Bunch.single ResourceVariant.material 12
  | asteroidMine => Bunch.single ResourceVariant.rocketFuel 2
  | quarry => Bunch.single ResourceVariant.power 45
  | powerPlant => Bunch.single ResourceVariant.rocketFuel 2

/-- Model of `ConstructionVariant::produce_resources`. -/
def produce_resources : ConstructionVariant → Bunch
  | solarField => Bunch.single ResourceVariant.power 3
  | atmosphereHarvester => Bunch.single ResourceVariant.fusionFuel 10
  | chemicalPlant => Bunch.single ResourceVariant.rocketFuel 4
  | planetFarm => Bunch.single ResourceVariant.food 10
  | asteroidMine => Bunch.single ResourceVariant.material 5
  | quarry => Bunch.single ResourceVariant.material 30
  | powerPlant => Bunch.single ResourceVariant.power 10

/-- Model of `ConstructionVariant::get_cooldown`. -/
def get_cooldown : ConstructionVariant → Nat
  | atmosphereHarvester => 3
  | planetFarm => 2
  | quarry => 3
  | _ => 1

end ConstructionVariant

/-- Lookup in an association list, modelling `HashMap::get`. -/
def occGetL : List (NodeId × NodeOccupant) → NodeId → Option NodeOccupant
  | [], _ => none
  | (k, o) :: rest, n => if k = n then some o else occGetL rest n

/-- Insertion into an association list, modelling `HashMap::insert`
(replace the value if the key is present, otherwise add the entry). -/
def occSetL : List (NodeId × NodeOccupant) → NodeId → NodeOccupant → List (NodeId × NodeOccupant)
  | [], n, o => [(n, o)]
  | (k, ko) :: rest, n, o => if k = n then (k, o) :: rest else (k, ko) :: occSetL rest n o

/-- Removal from an association list, modelling `HashMap::remove`. -/
def occRemoveL : List (NodeId × NodeOccupant) → NodeId → List (NodeId × NodeOccupant)
  | [], _ => []
  | (k, ko) :: rest, n => if k = n then occRemoveL rest n else (k, ko) :: occRemoveL rest n

/-- The map (`struct Map`). The purely visual fields `positions` and
`group_positions` (consumed only by the excluded rendering layer) are not
modelled. -/
structure Map where
  groups : List (GroupId × List NodeId)
  edges : List (GroupId × GroupId)
  occupation : List (NodeId × NodeOccupant)
deriving DecidableEq, Repr

namespace Map

/-- Model of `self.occupation.get(node_id)`. -/
def getOcc (m : Map) (n : NodeId) : Option NodeOccupant :=
  occGetL m.occupation n

/-- Model of `Map::set_at` / `self.occupation.insert(..)`. -/
def setOcc (m : Map) (n : NodeId) (o : NodeOccupant) : Map :=
  { m with occupation := occSetL m.occupation n o }

/-- Model of `self.occupation.remove(..)`. -/
def removeOcc (m : Map) (n : NodeId) : Map :=
  { m with occupation := occRemoveL m.occupation n }

/-- Model of `self.groups.get(id)`. -/
def groupsGet (m : Map) (g : GroupId) : Option (List NodeId) :=
  (m.groups.find? fun p => decide (p.1 = g)).map fun p => p.2

/-- Model of `Map::star`: all groups connected to `group_id` by an edge. -/
def star (m : Map) (g : GroupId) : List GroupId :=
  m.edges.filterMap fun e =>
    if e.1 = g then some e.2 else if e.2 = g then some e.1 else none

/-- Model of `Map::group_from_node`: first group whose node list contains
`id`; the source panics (`expect("no group")`) when there is none, which is
modelled by `none`. -/
def group_from_node (m : Map) (id : NodeId) : Option GroupId :=
  (m.groups.find? fun p => decide (id ∈ p.2)).map fun p => p.1

/-- Model of `Map::get_group_bunch`: sum of the stockpile occupants of the
group's nodes; panics (`expect("no group")`) when the group is absent. -/
def get_group_bunch (m : Map) (g : GroupId) : Option Bunch :=
  (m.groupsGet g).map fun ids =>
    (ids.filterMap fun n =>
      match m.getOcc n with
      | some (NodeOccupant.stockpile v a) => some (Bunch.single v a)
      | _ => none).foldl Bunch.add Bunch.empty

end Map

/-- Left fold modelling `Iterator::min_by` on `(node, amount)` pairs
compared by amount: the first minimal element wins ties. -/
def minByFold (best : Option (NodeId × Nat)) : List (NodeId × Nat) → Option (NodeId × Nat)
  | [] => best
  | x :: xs =>
    match best with
    | none => minByFold (some x) xs
    | some b => minByFold (some (if x.2 < b.2 then x else b)) xs

/-- Left fold modelling `Iterator::max_by` on `(node, amount)` pairs
compared by amount: the last maximal element wins ties. -/
def maxByFold (best : Option (NodeId × Nat)) : List (NodeId × Nat) → Option (NodeId × Nat)
  | [] => best
  | x :: xs =>
    match best with
    | none => maxByFold (some x) xs
    | some b => maxByFold (some (if b.2 ≤ x.2 then x else b)) xs

namespace Map

/-- Model of `Map::get_lowest_stockpile`: among the group's nodes holding a
stockpile of kind `v`, the node with the smallest amount. Both panics of
the source (`expect("no group")`, `expect("no stockpile")`) are `none`. -/
def get_lowest_stockpile (m : Map) (g : GroupId) (v : ResourceVariant) : Option NodeId :=
  match m.groupsGet g with
  | none => none
  | some ids =>
    (minByFold none (ids.filterMap fun n =>
      match m.getOcc n with
      | some (NodeOccupant.stockpile v' a) => if v' = v then some (n, a) else none
      | _ => none)).map fun p => p.1

end Map

/-- Body of the 16-pass loop of `Map::add_resource_in_group`. Each pass
either tops up the fullest existing sub-100 stockpile of the kind, or
places the entire remainder into an unoccupied node (uncapped), or, when
neither exists, silently drops the remainder by setting it to 0. -/
def addLoop (ids : List NodeId) (v : ResourceVariant) :
    Nat → Nat → Map → List (NodeId × Nat × Int) → Map × List (NodeId × Nat × Int)
  | 0, _, m, acc => (m, acc)
  | _ + 1, 0, m, acc => (m, acc)
  | fuel + 1, left + 1, m, acc =>
    match maxByFold none (ids.filterMap fun n =>
        match m.getOcc n with
        | some (NodeOccupant.stockpile v' a) =>
          if v' = v ∧ a < MAX_STOCKPILE then some (n, a) else none
        | _ => none) with
    | some (nid, a) =>
      let clamped := min (left + 1) (MAX_STOCKPILE - a)
      addLoop ids v fuel (left + 1 - clamped)
        (m.setOcc nid (NodeOccupant.stockpile v (a + clamped)))
        (acc ++ [(nid, clamped + a, Int.ofNat clamped)])
    | none =>
      match ids.find? fun n => (m.getOcc n).isNone with
      | some emptyId =>
        addLoop ids v fuel 0
          (m.setOcc emptyId (NodeOccupant.stockpile v (left + 1)))
          (acc ++ [(emptyId, left + 1, Int.ofNat (left + 1))])
      | none => addLoop ids v fuel 0 m acc

/-- Model of `Map::add_resource_in_group`. The source starts with
`assert!(amt <= 100)` (a panic for larger amounts, modelled by `none`)
and `groups.get(..).expect("no group")` (also `none`), then runs the
16-pass distribution loop and returns the ordered allocation records. -/
def addResourceInGroup (m : Map) (g : GroupId) (v : ResourceVariant) (amt : Nat) :
    Option (List (NodeId × Nat × Int) × Map) :=
  if amt ≤ 100 then
    match m.groupsGet g with
    | none => none
    | some ids =>
      let r := addLoop ids v 16 amt m []
      some (r.2, r.1)
  else none

/-- Action log entries (`enum AutoAction`). `src` and `dst` correspond to
the source's `from` and `to` fields. -/
inductive AutoAction where
  | consumeResource (src dst : NodeId) (var : ResourceVariant) (abs : Nat) (diff : Int)
  | produceResource (src dst : NodeId) (var : ResourceVariant) (abs : Nat) (diff : Int)
  | shipMove (src dst : GroupId)
deriving DecidableEq, Repr

/-- The playback queue resource (`struct AutoActions`); the timer is a
presentation concern and is not modelled. -/
structure AutoActions where
  actions : List AutoAction
  current : Option AutoAction
deriving DecidableEq, Repr

/-- Model of `AutoActions::done`. -/
def AutoActions.done (a : AutoActions) : Bool :=
  a.actions.isEmpty && a.current.isNone

/-- Engine states (`enum AppState`). -/
inductive AppState where
  | loading
  | setup
  | gameplay
  | gameOver
  | gameWon
deriving DecidableEq, Repr

/-- The mobile unit (`struct Ship`): `orbiting` is `orbiting_group`, `own`
is `own_group`, `plannedMove` is `planned_move`. -/
structure ShipState where
  orbiting : GroupId
  own : GroupId
  plannedMove : Option GroupId
deriving DecidableEq, Repr

/-- The mutable state read and written by one `turn` invocation. -/
structure GState where
  map : Map
  ship : ShipState
  turns : Nat
deriving DecidableEq, Repr

/-- The outcome of one resolved end-turn signal: the mutated state, the
emitted action log, and the (possibly changed) engine state. -/
structure TurnOut where
  map : Map
  ship : ShipState
  turns : Nat
  log : List AutoAction
  app : AppState
deriving DecidableEq, Repr

/-- Constant `MAX_TURN_ITERS: usize = 10000`. -/
def MAX_TURN_ITERS : Nat := 10000

/-- Inner consumption loop of `turn` for one requested `(kind, amount)`
pair: repeatedly take from the group's lowest stockpile of the kind. The
emitted entry carries the post-subtraction amount at the source as `abs`
and the full requested amount `req` (not the per-step clamp) as `diff`.
A stockpile that reaches 0 is removed. Panics (no lowest stockpile, or
the looked-up occupant not being a stockpile) are `none`. -/
def consumeLoop (gid : GroupId) (cid : NodeId) (v : ResourceVariant) (req : Nat) :
    Nat → Nat → Map → List AutoAction → Option (Map × List AutoAction)
  | 0, _, m, acc => some (m, acc)
  | _ + 1, 0, m, acc => some (m, acc)
  | fuel + 1, left + 1, m, acc =>
    match m.get_lowest_stockpile gid v with
    | none => none
    | some nid =>
      match m.getOcc nid with
      | some (NodeOccupant.stockpile v' a) =>
        let clamped := min (left + 1) a
        let m' := if a - clamped = 0 then m.removeOcc nid
                  else m.setOcc nid (NodeOccupant.stockpile v' (a - clamped))
        consumeLoop gid cid v req fuel (left + 1 - clamped) m'
          (acc ++ [AutoAction.consumeResource nid cid v (a - clamped) (Int.ofNat req)])
      | _ => none

/-- One requested resource consumed in full, as `turn` does for each entry
of the selected construction's request bunch. -/
def consumeRequest (m : Map) (gid : GroupId) (cid : NodeId) (v : ResourceVariant) (req : Nat) :
    Option (Map × List AutoAction) :=
  consumeLoop gid cid v req MAX_TURN_ITERS req m []

/-- Consumption of every entry of a request bunch, in iteration order. -/
def consumeAll (gid : GroupId) (cid : NodeId) :
    Map → List (ResourceVariant × Nat) → Option (Map × List AutoAction)
  | m, [] => some (m, [])
  | m, (v, amt) :: rest =>
    match consumeRequest m gid cid v amt with
    | none => none
    | some (m1, log1) =>
      match consumeAll gid cid m1 rest with
      | none => none
      | some (m2, log2) => some (m2, log1 ++ log2)

/-- Production of every entry of a produce bunch: each allocation record
of `add_resource_in_group` becomes a `ProduceResource` entry whose source
is the producing node. -/
def produceAll (gid : GroupId) (cid : NodeId) :
    Map → List (ResourceVariant × Nat) → Option (Map × List AutoAction)
  | m, [] => some (m, [])
  | m, (v, amt) :: rest =>
    match addResourceInGroup m gid v amt with
    | none => none
    | some (acts, m1) =>
      match produceAll gid cid m1 rest with
      | none => none
      | some (m2, log2) =>
        some (m2, (acts.map fun r => AutoAction.produceResource cid r.1 v r.2.1 r.2.2) ++ log2)

/-- Model of the candidate scan
`constructions.iter().enumerate().find(..)`: the first candidate whose
owning group's pooled bunch contains its request bunch. The outer `none`
is a panic inside the closure (`group_from_node` or `get_group_bunch`);
`some none` means no candidate qualifies (production starved). -/
def findProducible (m : Map) :
    List (NodeId × ConstructionVariant) → Nat →
    Option (Option (Nat × NodeId × ConstructionVariant))
  | [], _ => some none
  | (id, var) :: rest, i =>
    match m.group_from_node id with
    | none => none
    | some gid =>
      match m.get_group_bunch gid with
      | none => none
      | some available =>
        if available.contains var.request_resources then some (some (i, id, var))
        else findProducible m rest (i + 1)

/-- Cooldown reset of the selected construction:
`if let Some(Construction { cooldown, .. }) = occupation.get_mut(id)`,
a silent no-op on any other occupant. -/
def resetCooldown (m : Map) (cid : NodeId) (var : ConstructionVariant) : Map :=
  match m.getOcc cid with
  | some (NodeOccupant.construction cv _) =>
    m.setOcc cid (NodeOccupant.construction cv var.get_cooldown)
  | _ => m

/-- The bounded resolution loop of `turn` (step 4 of the spec): select the
first satisfiable candidate, reset its cooldown, consume its request,
produce its output, remove it from the candidate list, repeat. -/
def resolveLoop :
    Nat → Map → List (NodeId × ConstructionVariant) → List AutoAction →
    Option (Map × List AutoAction)
  | 0, m, _, log => some (m, log)
  | fuel + 1, m, cands, log =>
    match findProducible m cands 0 with
    | none => none
    | some none => some (m, log)
    | some (some (i, cid, var)) =>
      let m1 := resetCooldown m cid var
      match m1.group_from_node cid with
      | none => none
      | some gid =>
        match consumeAll gid cid m1 (Bunch.entries var.request_resources) with
        | none => none
        | some (m2, clog) =>
          match produceAll gid cid m2 (Bunch.entries var.produce_resources) with
          | none => none
          | some (m3, plog) =>
            resolveLoop fuel m3 (cands.eraseIdx i) (log ++ clog ++ plog)

/-- Cooldown decrement at the start of a resolved turn: every construction
with cooldown > 0 loses 1. -/
def decCooldowns (m : Map) : Map :=
  { m with occupation := m.occupation.map fun p =>
      match p.2 with
      | NodeOccupant.construction var (c + 1) => (p.1, NodeOccupant.construction var c)
      | _ => p }

/-- Candidate collection: every node holding a construction with cooldown
0, in occupation iteration order. -/
def collectCands (m : Map) : List (NodeId × ConstructionVariant) :=
  m.occupation.filterMap fun p =>
    match p.2 with
    | NodeOccupant.construction var 0 => some (p.1, var)
    | _ => none

/-- Final win check of `turn`: `if fusion > 100 && food > 100` transition
to `GameWon`; `food` and `fusion` are the values sampled before the eat
and travel steps. -/
def winPhase (m : Map) (sh : ShipState) (log : List AutoAction) (turns : Nat)
    (food fusion : Nat) (app : AppState) : Option TurnOut :=
  some ⟨m, sh, turns, log, if 100 < fusion ∧ 100 < food then AppState.gameWon else app⟩

/-- Travel step of `turn`: if a move is planned to a different group and
fusion fuel (sampled before the eat step) is positive, consume 1 unit from
the home group's lowest fusion stockpile (without pruning a resulting 0),
emit the consume and `ShipMove` entries, and rewrite the adjacency graph
so the ship's own group is adjacent only to the destination. The planned
move is cleared on every path except the early `return` (a non-stockpile
occupant under the lowest-stockpile node), which exits the whole system.
`none` models the panics (no lowest stockpile, `u32` underflow). -/
def shipPhase (m : Map) (sh : ShipState) (log : List AutoAction) (turns : Nat)
    (food fusion : Nat) (app : AppState) : Option TurnOut :=
  match sh.plannedMove with
  | none => winPhase m { sh with plannedMove := none } log turns food fusion app
  | some plan =>
    if 0 < fusion ∧ plan ≠ sh.orbiting then
      match m.get_lowest_stockpile 0 ResourceVariant.fusionFuel with
      | none => none
      | some nid =>
        match m.getOcc nid with
        | some (NodeOccupant.stockpile v a) =>
          match a with
          | 0 => none
          | a0 + 1 =>
            winPhase
              { m.setOcc nid (NodeOccupant.stockpile v a0) with edges :=
                  ((m.setOcc nid (NodeOccupant.stockpile v a0)).edges.filter fun e =>
                    decide (e.1 ≠ sh.own) && decide (e.2 ≠ sh.own)) ++ [(sh.own, plan)] }
              { sh with plannedMove := none }
              (log ++
                [AutoAction.consumeResource nid nid ResourceVariant.fusionFuel a0 (-1),
                 AutoAction.shipMove sh.orbiting plan])
              turns food fusion app
        | _ => some ⟨m, sh, turns, log, app⟩
    else winPhase m { sh with plannedMove := none } log turns food fusion app

/-- Steps of `turn` after the resolution loop: sample the home group's
pooled food and fusion, run the eat step (decrement the lowest food
stockpile without pruning a resulting 0, or transition to `GameOver` when
the pool is empty), then the travel step, then the win check. `none`
models the panics; a non-stockpile occupant under the lowest-stockpile
node is the source's early `return`. -/
def afterResolve (m : Map) (sh : ShipState) (log : List AutoAction) (turns : Nat) :
    Option TurnOut :=
  match m.get_group_bunch 0 with
  | none => none
  | some pooled =>
    if 0 < (pooled.res ResourceVariant.food).getD 0 then
      match m.get_lowest_stockpile 0 ResourceVariant.food with
      | none => none
      | some nid =>
        match m.getOcc nid with
        | some (NodeOccupant.stockpile v a) =>
          match a with
          | 0 => none
          | a0 + 1 =>
            shipPhase (m.setOcc nid (NodeOccupant.stockpile v a0)) sh
              (log ++ [AutoAction.consumeResource nid nid ResourceVariant.food a0 (-1)])
              turns ((pooled.res ResourceVariant.food).getD 0)
              ((pooled.res ResourceVariant.fusionFuel).getD 0) AppState.gameplay
        | _ => some ⟨m, sh, turns, log, AppState.gameplay⟩
    else
      shipPhase m sh log turns ((pooled.res ResourceVariant.food).getD 0)
        ((pooled.res ResourceVariant.fusionFuel).getD 0) AppState.gameOver

/-- Body of the `turn` system for one `EndTurn` event: advance the turn
counter, decrement cooldowns, collect candidates, run the bounded
resolution loop, then the eat / travel / win steps. -/
def turnBody (st : GState) : Option TurnOut :=
  match resolveLoop MAX_TURN_ITERS (decCooldowns st.map)
      (collectCands (decCooldowns st.map)) [] with
  | none => none
  | some (m1, log1) => afterResolve m1 st.ship log1 (st.turns + 1)

/-- The `turn` system with its busy gate: when the previous turn's action
log has not finished draining (`!autoactions.done()`), the system returns
at once, leaving every piece of state untouched and emitting nothing; the
engine state has no field in which a signal could be queued. -/
def turnSystem (auto : AutoActions) (st : GState) : Option TurnOut :=
  if auto.done then turnBody st
  else some ⟨st.map, st.ship, st.turns, [], AppState.gameplay⟩

/-- State synchronisation performed by the playback system
`play_autoactions` when an action finishes playing: a `ShipMove` entry
sets the ship's orbiting group to the destination (the only simulation
state the playback layer writes). -/
def syncShipMove (act : AutoAction) (sh : ShipState) : ShipState :=
  match act with
  | AutoAction.shipMove _ dst => { sh with orbiting := dst }
  | _ => sh

/-- Manual stockpile relocation performed by the `highlight` system when a
move-destination node is clicked: `split` halves the source amount first;
a same-kind destination absorbs `min(from + to, 100)` (excess destroyed)
while the source is removed (whole move) or reduced (split move); an
empty destination receives the moved amount unchanged; any other
destination leaves the map unchanged. -/
def moveStockpile (m : Map) (fromId toId : NodeId) (split : Bool) :
    Map × List AutoAction :=
  match m.getOcc fromId with
  | some (NodeOccupant.stockpile fromVar fromAmtFull) =>
    let fromAmt := if split then fromAmtFull / 2 else fromAmtFull
    match m.getOcc toId with
    | some (NodeOccupant.stockpile toVar toAmt) =>
      if toVar = fromVar then
        let clamped := min (fromAmt + toAmt) 100
        let step :=
          if fromAmt = fromAmtFull then
            (m.removeOcc fromId,
             [AutoAction.consumeResource fromId toId fromVar 0 (Int.ofNat fromAmt)])
          else
            (m.setOcc fromId (NodeOccupant.stockpile fromVar (fromAmtFull - fromAmt)),
             [AutoAction.consumeResource fromId toId fromVar (fromAmtFull - fromAmt)
               (Int.ofNat fromAmt)])
        (step.1.setOcc toId (NodeOccupant.stockpile fromVar clamped),
         step.2 ++ [AutoAction.produceResource toId toId fromVar clamped (Int.ofNat fromAmt)])
      else (m, [])
    | some _ => (m, [])
    | none =>
      let step :=
        if fromAmt = fromAmtFull then
          (m.removeOcc fromId,
           [AutoAction.consumeResource fromId toId fromVar 0 (Int.ofNat fromAmt)])
        else
          (m.setOcc fromId (NodeOccupant.stockpile fromVar (fromAmtFull - fromAmt)),
           [AutoAction.consumeResource fromId toId fromVar (fromAmtFull - fromAmt)
             (Int.ofNat fromAmt)])
      (step.1.setOcc toId (NodeOccupant.stockpile fromVar fromAmt),
       step.2 ++ [AutoAction.produceResource toId toId fromVar fromAmt (Int.ofNat fromAmt)])
  | _ => (m, [])

/-- Pooled amount of food in the home group (`GroupId(0)`), 0 when the
group is missing. -/
def foodOf (m : Map) : Nat :=
  match m.get_group_bunch 0 with
  | some b => (b.res ResourceVariant.food).getD 0
  | none => 0

/-- Pooled amount of fusion fuel in the home group, 0 when the group is
missing. -/
def fusionOf (m : Map) : Nat :=
  match m.get_group_bunch 0 with
  | some b => (b.res ResourceVariant.fusionFuel).getD 0
  | none => 0

/-- An edge touches the given group. -/
def incident (g : GroupId) (e : GroupId × GroupId) : Bool :=
  decide (e.1 = g) || decide (e.2 = g)

/-- Relation between the map before a call to `add_resource_in_group` and
the map during/after it: every occupied node stays occupied, and an
occupant either is untouched or is a stockpile of the same kind whose new
amount is at most 100. -/
def AddInv (m0 m : Map) : Prop :=
  ∀ n o0, m0.getOcc n = some o0 → ∃ o1, m.getOcc n = some o1 ∧
    (o1 = o0 ∨ ∃ kv a0 a1, o0 = NodeOccupant.stockpile kv a0 ∧
      o1 = NodeOccupant.stockpile kv a1 ∧ a1 ≤ 100)

/-! Concrete fixtures used by the per-claim witnesses and counterexamples.
Group 0 is the home group throughout, as in the source. -/

/-- Fixture: two material piles of 50 (joint free capacity 100) and one
empty node. -/
def c1map : Map :=
  { groups := [(0, [0, 1, 2])], edges := [],
    occupation := [(0, NodeOccupant.stockpile ResourceVariant.material 50),
                   (1, NodeOccupant.stockpile ResourceVariant.material 50)] }

/-- Fixture: one material pile of 50 (free capacity 50) and one empty
node. -/
def c1map2 : Map :=
  { groups := [(0, [0, 1])], edges := [],
    occupation := [(0, NodeOccupant.stockpile ResourceVariant.material 50)] }

/-- Expected map after adding 100 material to `c1map2`. -/
def c1res : Map :=
  { groups := [(0, [0, 1])], edges := [],
    occupation := [(0, NodeOccupant.stockpile ResourceVariant.material 100),
                   (1, NodeOccupant.stockpile ResourceVariant.material 50)] }

/-- Fixture: the home group holds a single food stockpile of amount 1 and
nothing else; no constructions, no planned move. -/
def c2state : GState :=
  { map := { groups := [(0, [0])], edges := [],
             occupation := [(0, NodeOccupant.stockpile ResourceVariant.food 1)] },
    ship := { orbiting := 1, own := 0, plannedMove := none },
    turns := 1 }

/-- Fixture: two food piles of 3 and 4 in group 0; a request of 5 drains
the pile of 3 entirely and 2 units from the pile of 4. -/
def c3map : Map :=
  { groups := [(0, [0, 1])], edges := [],
    occupation := [(0, NodeOccupant.stockpile ResourceVariant.food 3),
                   (1, NodeOccupant.stockpile ResourceVariant.food 4)] }

/-- Map after consuming 5 food from `c3map`. -/
def c3mapAfter : Map :=
  { groups := [(0, [0, 1])], edges := [],
    occupation := [(1, NodeOccupant.stockpile ResourceVariant.food 2)] }

/-- Log emitted while consuming 5 food from `c3map`: both entries carry
delta 5 although the actual transfers are 3 and 2. -/
def c3log : List AutoAction :=
  [AutoAction.consumeResource 0 7 ResourceVariant.food 0 (Int.ofNat 5),
   AutoAction.consumeResource 1 7 ResourceVariant.food 2 (Int.ofNat 5)]

/-- Fixture: pooled food 101 (piles 100 and 1) and pooled fusion 101
(piles 100 and 1), no constructions, no planned move. -/
def c4state : GState :=
  { map := { groups := [(0, [0, 1, 2, 3])], edges := [],
             occupation := [(0, NodeOccupant.stockpile ResourceVariant.food 100),
                            (1, NodeOccupant.stockpile ResourceVariant.food 1),
                            (2, NodeOccupant.stockpile ResourceVariant.fusionFuel 100),
                            (3, NodeOccupant.stockpile ResourceVariant.fusionFuel 1)] },
    ship := { orbiting := 1, own := 0, plannedMove := none },
    turns := 0 }

/-- Fixture for the C4 witness, same shape as `c4state`. -/
def c4wstate : GState :=
  { map := { groups := [(0, [0, 1, 2, 3])], edges := [],
             occupation := [(0, NodeOccupant.stockpile ResourceVariant.food 100),
                            (1, NodeOccupant.stockpile ResourceVariant.food 1),
                            (2, NodeOccupant.stockpile ResourceVariant.fusionFuel 100),
                            (3, NodeOccupant.stockpile ResourceVariant.fusionFuel 1)] },
    ship := { orbiting := 1, own := 0, plannedMove := none },
    turns := 0 }

/-- The post-loop map of the C4 witness turn (no construction runs). -/
def c4wm1 : Map := decCooldowns c4wstate.map

/-- The full outcome of the C4 witness turn. -/
def c4wout : TurnOut :=
  { map := { groups := [(0, [0, 1, 2, 3])], edges := [],
             occupation := [(0, NodeOccupant.stockpile ResourceVariant.food 100),
                            (1, NodeOccupant.stockpile ResourceVariant.food 0),
                            (2, NodeOccupant.stockpile ResourceVariant.fusionFuel 100),
                            (3, NodeOccupant.stockpile ResourceVariant.fusionFuel 1)] },
    ship := { orbiting := 1, own := 0, plannedMove := none },
    turns := 1,
    log := [AutoAction.consumeResource 1 1 ResourceVariant.food 0 (-1)],
    app := AppState.gameWon }

/-- Fixture: a planned move from group 1 to group 2, food and fusion
available, one edge (0, 1) touching the ship's own group 0. -/
def c5cst : GState :=
  { map := { groups := [(0, [0, 1]), (1, []), (2, [])], edges := [(0, 1)],
             occupation := [(0, NodeOccupant.stockpile ResourceVariant.food 5),
                            (1, NodeOccupant.stockpile ResourceVariant.fusionFuel 5)] },
    ship := { orbiting := 1, own := 0, plannedMove := some 2 },
    turns := 3 }

/-- Fixture for the C5 witness, same shape as `c5cst`. -/
def c5wstate : GState :=
  { map := { groups := [(0, [0, 1]), (1, []), (2, [])], edges := [(0, 1)],
             occupation := [(0, NodeOccupant.stockpile ResourceVariant.food 5),
                            (1, NodeOccupant.stockpile ResourceVariant.fusionFuel 5)] },
    ship := { orbiting := 1, own := 0, plannedMove := some 2 },
    turns := 3 }

/-- The post-loop map of the C5 witness turn (no construction runs). -/
def c5wm1 : Map := decCooldowns c5wstate.map

/-- The full outcome of the C5 witness turn. -/
def c5wout : TurnOut :=
  { map := { groups := [(0, [0, 1]), (1, []), (2, [])], edges := [(0, 2)],
             occupation := [(0, NodeOccupant.stockpile ResourceVariant.food 4),
                            (1, NodeOccupant.stockpile ResourceVariant.fusionFuel 4)] },
    ship := { orbiting := 1, own := 0, plannedMove := none },
    turns := 4,
    log := [AutoAction.consumeResource 0 0 ResourceVariant.food 4 (-1),
            AutoAction.consumeResource 1 1 ResourceVariant.fusionFuel 4 (-1),
            AutoAction.shipMove 1 2],
    app := AppState.gameplay }

/-- Fixture: a material pile at 95 and an empty node; adding 10 tops the
pile up to exactly 100 and spills 5 into the empty node. -/
def c7map : Map :=
  { groups := [(0, [0, 1])], edges := [],
    occupation := [(0, NodeOccupant.stockpile ResourceVariant.material 95)] }

/-- Allocation records of adding 10 material to `c7map`. -/
def c7acts : List (NodeId × Nat × Int) := [(0, 100, 5), (1, 5, 5)]

/-- Map after adding 10 material to `c7map`. -/
def c7after : Map :=
  { groups := [(0, [0, 1])], edges := [],
    occupation := [(0, NodeOccupant.stockpile ResourceVariant.material 100),
                   (1, NodeOccupant.stockpile ResourceVariant.material 5)] }

/-- Fixture: a playback queue still holding one undrained entry. -/
def c8auto : AutoActions := { actions := [AutoAction.shipMove 0 1], current := none }

/-- Fixture: an arbitrary small state for the busy-gate witness. -/
def c8state : GState :=
  { map := { groups := [(0, [0])], edges := [],
             occupation := [(0, NodeOccupant.stockpile ResourceVariant.food 7)] },
    ship := { orbiting := 1, own := 0, plannedMove := none },
    turns := 5 }

/-- Fixture for the C9 witness, same shape as `c5cst`. -/
def c9wstate : GState :=
  { map := { groups := [(0, [0, 1]), (1, []), (2, [])], edges := [(0, 1)],
             occupation := [(0, NodeOccupant.stockpile ResourceVariant.food 5),
                            (1, NodeOccupant.stockpile ResourceVariant.fusionFuel 5)] },
    ship := { orbiting := 1, own := 0, plannedMove := some 2 },
    turns := 3 }

/-- The post-loop map of the C9 witness turn. -/
def c9wm1 : Map := decCooldowns c9wstate.map

/-- The full outcome of the C9 witness turn. -/
def c9wout : TurnOut :=
  { map := { groups := [(0, [0, 1]), (1, []), (2, [])], edges := [(0, 2)],
             occupation := [(0, NodeOccupant.stockpile ResourceVariant.food 4),
                            (1, NodeOccupant.stockpile ResourceVariant.fusionFuel 4)] },
    ship := { orbiting := 1, own := 0, plannedMove := none },
    turns := 4,
    log := [AutoAction.consumeResource 0 0 ResourceVariant.food 4 (-1),
            AutoAction.consumeResource 1 1 ResourceVariant.fusionFuel 4 (-1),
            AutoAction.shipMove 1 2],
    app := AppState.gameplay }

/-- Fixture: material piles of 80 (source) and 50 (destination); a whole
move loses 30 units to the 100 cap. -/
def c10map : Map :=
  { groups := [(0, [0, 1])], edges := [],
    occupation := [(0, NodeOccupant.stockpile ResourceVariant.material 80),
                   (1, NodeOccupant.stockpile ResourceVariant.material 50)] }

/-! Helper lemmas about the association-list operations. -/

theorem occGetL_set (l : List (NodeId × NodeOccupant)) (n x : NodeId) (o : NodeOccupant) :
    occGetL (occSetL l n o) x = if n = x then some o else occGetL l x := by
  induction l with
  | nil => rfl
  | cons p rest ih =>
    obtain ⟨k, ko⟩ := p
    by_cases hkn : k = n
    · subst hkn
      simp only [occSetL, if_pos rfl, occGetL]
      by_cases hkx : k = x
      · simp [hkx]
      · simp [hkx]
    · simp only [occSetL, if_neg hkn, occGetL, ih]
      by_cases hkx : k = x
      · have hnx : ¬n = x := fun h => hkn (h.symm ▸ hkx.symm ▸ rfl)
        simp [hkx, hnx]
      · simp [hkx]

theorem occGetL_remove (l : List (NodeId × NodeOccupant)) (n x : NodeId) :
    occGetL (occRemoveL l n) x = if n = x then none else occGetL l x := by
  induction l with
  | nil => simp [occRemoveL, occGetL]
  | cons p rest ih =>
    obtain ⟨k, ko⟩ := p
    by_cases hkn : k = n
    · subst hkn
      simp only [occRemoveL, eq_self_iff_true, if_true]
      rw [ih]
      by_cases hkx : k = x
      · simp [hkx]
      · simp [hkx, occGetL]
    · simp only [occRemoveL, if_neg hkn, occGetL]
      rw [ih]
      by_cases hkx : k = x
      · have hnx : ¬n = x := fun h => hkn (hkx.trans h.symm)
        simp [hkx, hnx]
      · simp [hkx]

theorem getOcc_setOcc (m : Map) (n x : NodeId) (o : NodeOccupant) :
    (m.setOcc n o).getOcc x = if n = x then some o else m.getOcc x :=
  occGetL_set m.occupation n x o

theorem getOcc_removeOcc (m : Map) (n x : NodeId) :
    (m.removeOcc n).getOcc x = if n = x then none else m.getOcc x :=
  occGetL_remove m.occupation n x

theorem minByFold_mem (l : List (NodeId × Nat)) :
    ∀ (best : Option (NodeId × Nat)) (x : NodeId × Nat),
      minByFold best l = some x → x ∈ l ∨ best = some x := by
  induction l with
  | nil => intro best x h; exact Or.inr h
  | cons y ys ih =>
    intro best x h
    cases best with
    | none =>
      rcases ih (some y) x h with hmem | hy
      · exact Or.inl (List.mem_cons_of_mem _ hmem)
      · exact Or.inl (by simp [Option.some_inj.mp hy])
    | some b =>
      rcases ih (some (if y.2 < b.2 then y else b)) x h with hmem | hy
      · exact Or.inl (List.mem_cons_of_mem _ hmem)
      · by_cases hc : y.2 < b.2
        · rw [if_pos hc] at hy
          exact Or.inl (by simp [Option.some_inj.mp hy])
        · rw [if_neg hc] at hy
          exact Or.inr hy

theorem maxByFold_mem (l : List (NodeId × Nat)) :
    ∀ (best : Option (NodeId × Nat)) (x : NodeId × Nat),
      maxByFold best l = some x → x ∈ l ∨ best = some x := by
  induction l with
  | nil => intro best x h; exact Or.inr h
  | cons y ys ih =>
    intro best x h
    cases best with
    | none =>
      rcases ih (some y) x h with hmem | hy
      · exact Or.inl (List.mem_cons_of_mem _ hmem)
      · exact Or.inl (by simp [Option.some_inj.mp hy])
    | some b =>
      rcases ih (some (if b.2 ≤ y.2 then y else b)) x h with hmem | hy
      · exact Or.inl (List.mem_cons_of_mem _ hmem)
      · by_cases hc : b.2 ≤ y.2
        · rw [if_pos hc] at hy
          exact Or.inl (by simp [Option.some_inj.mp hy])
        · rw [if_neg hc] at hy
          exact Or.inr hy

/-- The node returned by `get_lowest_stockpile` does hold a stockpile of
the requested kind (inversion of the selection filter). -/
theorem get_lowest_occ (m : Map) (g : GroupId) (v : ResourceVariant) (nid : NodeId)
    (h : m.get_lowest_stockpile g v = some nid) :
    ∃ a, m.getOcc nid = some (NodeOccupant.stockpile v a) := by
  unfold Map.get_lowest_stockpile at h
  cases hg : m.groupsGet g with
  | none => rw [hg] at h; cases h
  | some ids =>
    rw [hg] at h
    rcases Option.map_eq_some'.mp h with ⟨p, hp, hp1⟩
    rcases minByFold_mem _ _ _ hp with hmem | hbest
    · rcases List.mem_filterMap.mp hmem with ⟨n, _, hn⟩
      split at hn
      · rename_i v' a heq
        split at hn
        · rename_i hv
          cases hn
          subst hv
          exact ⟨a, hp1 ▸ heq⟩
        · cases hn
      · cases hn
    · cases hbest

/-! Edge preservation: nothing before the travel step touches the edge
list. -/

theorem setOcc_edges (m : Map) (n : NodeId) (o : NodeOccupant) :
    (m.setOcc n o).edges = m.edges := rfl

theorem removeOcc_edges (m : Map) (n : NodeId) : (m.removeOcc n).edges = m.edges := rfl

theorem decCooldowns_edges (m : Map) : (decCooldowns m).edges = m.edges := rfl

theorem resetCooldown_edges (m : Map) (cid : NodeId) (var : ConstructionVariant) :
    (resetCooldown m cid var).edges = m.edges := by
  unfold resetCooldown
  split <;> rfl

theorem consumeLoop_edges (gid : GroupId) (cid : NodeId) (v : ResourceVariant) (req : Nat) :
    ∀ (fuel left : Nat) (m : Map) (acc : List AutoAction) (m2 : Map) (log : List AutoAction),
      consumeLoop gid cid v req fuel left m acc = some (m2, log) → m2.edges = m.edges := by
  intro fuel
  induction fuel with
  | zero =>
    intro left m acc m2 log h
    cases h
    rfl
  | succ fuel ih =>
    intro left m acc m2 log h
    cases left with
    | zero =>
      cases h
      rfl
    | succ left =>
      simp only [consumeLoop] at h
      split at h
      · cases h
      · split at h
        · rename_i v' a heq
          rw [ih _ _ _ _ _ h]
          split <;> rfl
        · cases h

theorem consumeRequest_edges (m : Map) (gid : GroupId) (cid : NodeId) (v : ResourceVariant)
    (req : Nat) (m2 : Map) (log : List AutoAction)
    (h : consumeRequest m gid cid v req = some (m2, log)) : m2.edges = m.edges :=
  consumeLoop_edges gid cid v req MAX_TURN_ITERS req m [] m2 log h

theorem consumeAll_edges (gid : GroupId) (cid : NodeId) :
    ∀ (entries : List (ResourceVariant × Nat)) (m m2 : Map) (log : List AutoAction),
      consumeAll gid cid m entries = some (m2, log) → m2.edges = m.edges := by
  intro entries
  induction entries with
  | nil =>
    intro m m2 log h
    cases h
    rfl
  | cons e rest ih =>
    intro m m2 log h
    obtain ⟨v, amt⟩ := e
    simp only [consumeAll] at h
    split at h
    · cases h
    · rename_i p hreq
      split at h
      · cases h
      · rename_i p2 hrest
        cases h
        rw [ih _ _ _ hrest, consumeRequest_edges _ _ _ _ _ _ _ hreq]

theorem addLoop_edges (ids : List NodeId) (v : ResourceVariant) :
    ∀ (fuel left : Nat) (m : Map) (acc : List (NodeId × Nat × Int)),
      (addLoop ids v fuel left m acc).1.edges = m.edges := by
  intro fuel
  induction fuel with
  | zero => intro left m acc; rfl
  | succ fuel ih =>
    intro left m acc
    cases left with
    | zero => rfl
    | succ left =>
      simp only [addLoop]
      split
      · rw [ih]
        rfl
      · split
        · rw [ih]
          rfl
        · rw [ih]

theorem addResourceInGroup_edges (m : Map) (g : GroupId) (v : ResourceVariant) (amt : Nat)
    (acts : List (NodeId × Nat × Int)) (m2 : Map)
    (h : addResourceInGroup m g v amt = some (acts, m2)) : m2.edges = m.edges := by
  unfold addResourceInGroup at h
  split at h
  · split at h
    · cases h
    · cases h
      exact addLoop_edges _ _ _ _ _ _
  · cases h

theorem produceAll_edges (gid : GroupId) (cid : NodeId) :
    ∀ (entries : List (ResourceVariant × Nat)) (m m2 : Map) (log : List AutoAction),
      produceAll gid cid m entries = some (m2, log) → m2.edges = m.edges := by
  intro entries
  induction entries with
  | nil =>
    intro m m2 log h
    cases h
    rfl
  | cons e rest ih =>
    intro m m2 log h
    obtain ⟨v, amt⟩ := e
    simp only [produceAll] at h
    split at h
    · cases h
    · rename_i p hadd
      split at h
      · cases h
      · rename_i p2 hrest
        cases h
        rw [ih _ _ _ hrest, addResourceInGroup_edges _ _ _ _ _ _ hadd]

theorem resolveLoop_edges :
    ∀ (fuel : Nat) (m : Map) (cands : List (NodeId × ConstructionVariant))
      (log : List AutoAction) (m2 : Map) (log2 : List AutoAction),
      resolveLoop fuel m cands log = some (m2, log2) → m2.edges = m.edges := by
  intro fuel
  induction fuel with
  | zero =>
    intro m cands log m2 log2 h
    cases h
    rfl
  | succ fuel ih =>
    intro m cands log m2 log2 h
    simp only [resolveLoop] at h
    split at h
    · cases h
    · cases h
      rfl
    · split at h
      · cases h
      · split at h
        · cases h
        · rename_i mc hcons
          split at h
          · cases h
          · rename_i mp hprod
            rw [ih _ _ _ _ _ h, produceAll_edges _ _ _ _ _ _ hprod,
              consumeAll_edges _ _ _ _ _ _ hcons, resetCooldown_edges]

/-! Characterisation of the post-loop phases. -/

theorem ite_won_iff (food fusion : Nat) (app : AppState) (happ : app ≠ AppState.gameWon) :
    ((if 100 < fusion ∧ 100 < food then AppState.gameWon else app) = AppState.gameWon
      ↔ 100 < fusion ∧ 100 < food) := by
  split
  · rename_i hc
    simp [hc]
  · rename_i hc
    simp [happ, hc]

/-- The engine transitions to `GameWon` from `shipPhase` exactly when the
sampled `fusion` and `food` both exceed 100 (assuming the incoming state is
not already `GameWon`, which `turn` never passes in). -/
theorem shipPhase_app (m : Map) (sh : ShipState) (log : List AutoAction) (turns : Nat)
    (food fusion : Nat) (app : AppState) (out : TurnOut)
    (h : shipPhase m sh log turns food fusion app = some out)
    (happ : app ≠ AppState.gameWon) :
    (out.app = AppState.gameWon ↔ 100 < fusion ∧ 100 < food) := by
  unfold shipPhase at h
  split at h
  · simp only [winPhase, Option.some_inj] at h
    subst h
    exact ite_won_iff food fusion app happ
  · rename_i plan
    split at h
    · split at h
      · cases h
      · rename_i nid hl
        split at h
        · rename_i v a heq
          cases a with
          | zero => cases h
          | succ a0 =>
            simp only [winPhase, Option.some_inj] at h
            subst h
            exact ite_won_iff food fusion app happ
        · rename_i hns
          obtain ⟨a, ha⟩ := get_lowest_occ m 0 ResourceVariant.fusionFuel nid hl
          exact absurd ha (by intro hc; exact hns _ _ hc)
    · simp only [winPhase, Option.some_inj] at h
      subst h
      exact ite_won_iff food fusion app happ

/-- The engine transitions to `GameWon` from the post-loop phase exactly
when the home group's pooled food and fusion, sampled on the post-loop map
(before the eat and travel consumption), both exceed 100. -/
theorem afterResolve_app (m : Map) (sh : ShipState) (log : List AutoAction) (turns : Nat)
    (out : TurnOut) (h : afterResolve m sh log turns = some out) :
    (out.app = AppState.gameWon ↔ 100 < fusionOf m ∧ 100 < foodOf m) := by
  unfold afterResolve at h
  split at h
  · cases h
  · rename_i pooled hb
    have hfood : foodOf m = (pooled.res ResourceVariant.food).getD 0 := by
      simp [foodOf, hb]
    have hfus : fusionOf m = (pooled.res ResourceVariant.fusionFuel).getD 0 := by
      simp [fusionOf, hb]
    rw [hfood, hfus]
    split at h
    · split at h
      · cases h
      · rename_i nid hl
        split at h
        · rename_i v a heq
          cases a with
          | zero => cases h
          | succ a0 => exact shipPhase_app _ _ _ _ _ _ _ _ h (by intro hc; cases hc)
        · rename_i hns
          obtain ⟨a, ha⟩ := get_lowest_occ m 0 ResourceVariant.food nid hl
          exact absurd ha (by intro hc; exact hns _ _ hc)
    · exact shipPhase_app _ _ _ _ _ _ _ _ h (by intro hc; cases hc)

/-- When a move is planned to a different group and the sampled fusion is
positive, `shipPhase` leaves the ship's orbiting group unchanged (only
clearing the plan), emits the `ShipMove` entry, and rewrites the edges so
the ship's own group is adjacent exactly to the destination. -/
theorem shipPhase_move (m : Map) (sh : ShipState) (log : List AutoAction) (turns : Nat)
    (food fusion : Nat) (app : AppState) (out : TurnOut) (d : GroupId)
    (hplan : sh.plannedMove = some d) (hne : d ≠ sh.orbiting) (hfuel : 0 < fusion)
    (h : shipPhase m sh log turns food fusion app = some out) :
    out.ship = { sh with plannedMove := none } ∧
    AutoAction.shipMove sh.orbiting d ∈ out.log ∧
    out.map.edges =
      (m.edges.filter fun e => decide (e.1 ≠ sh.own) && decide (e.2 ≠ sh.own)) ++
        [(sh.own, d)] := by
  unfold shipPhase at h
  split at h
  · rename_i hp
    rw [hplan] at hp
    cases hp
  · rename_i plan hp
    rw [hplan] at hp
    cases hp
    rw [if_pos ⟨hfuel, hne⟩] at h
    split at h
    · cases h
    · rename_i nid hl
      split at h
      · rename_i v a heq
        cases a with
        | zero => cases h
        | succ a0 =>
          simp only [winPhase, Option.some_inj] at h
          subst h
          refine ⟨rfl, ?_, rfl⟩
          simp
      · rename_i hns
        obtain ⟨a, ha⟩ := get_lowest_occ m 0 ResourceVariant.fusionFuel nid hl
        exact absurd ha (by intro hc; exact hns _ _ hc)

/-- Lift of `shipPhase_move` over the eat step: the eat step touches only
the occupation, so the edge rewrite is relative to the post-loop map. -/
theorem afterResolve_move (m : Map) (sh : ShipState) (log : List AutoAction) (turns : Nat)
    (out : TurnOut) (d : GroupId)
    (hplan : sh.plannedMove = some d) (hne : d ≠ sh.orbiting) (hfuel : 0 < fusionOf m)
    (h : afterResolve m sh log turns = some out) :
    out.ship = { sh with plannedMove := none } ∧
    AutoAction.shipMove sh.orbiting d ∈ out.log ∧
    out.map.edges =
      (m.edges.filter fun e => decide (e.1 ≠ sh.own) && decide (e.2 ≠ sh.own)) ++
        [(sh.own, d)] := by
  unfold afterResolve at h
  split at h
  · cases h
  · rename_i pooled hb
    have hfus : fusionOf m = (pooled.res ResourceVariant.fusionFuel).getD 0 := by
      simp [fusionOf, hb]
    rw [hfus] at hfuel
    split at h
    · split at h
      · cases h
      · rename_i nid hl
        split at h
        · rename_i v a heq
          cases a with
          | zero => cases h
          | succ a0 =>
            exact shipPhase_move (m.setOcc nid (NodeOccupant.stockpile v a0)) sh
              _ _ _ _ _ _ _ hplan hne hfuel h
        · rename_i hns
          obtain ⟨a, ha⟩ := get_lowest_occ m 0 ResourceVariant.food nid hl
          exact absurd ha (by intro hc; exact hns _ _ hc)
    · exact shipPhase_move m sh _ _ _ _ _ _ _ hplan hne hfuel h

/-! Invariant of the per-request consumption loop. -/

/-- Every entry emitted by the consumption loop carries the full requested
amount as its delta, and its `abs` field is the post-subtraction amount at
its source: in the final map the source either was emptied and removed
(`abs = 0`) or still stores exactly `abs` of the kind. -/
theorem consumeLoop_spec (gid : GroupId) (cid : NodeId) (v : ResourceVariant) (req : Nat) :
    ∀ (fuel left : Nat) (m : Map) (acc : List AutoAction) (m2 : Map) (log : List AutoAction),
      consumeLoop gid cid v req fuel left m acc = some (m2, log) →
      (∀ e ∈ acc, ∃ src abs, e = AutoAction.consumeResource src cid v abs (Int.ofNat req) ∧
        ((abs = 0 ∧ m.getOcc src = none) ∨
          (m.getOcc src = some (NodeOccupant.stockpile v abs) ∧ left = 0))) →
      ∀ e ∈ log, ∃ src abs, e = AutoAction.consumeResource src cid v abs (Int.ofNat req) ∧
        ((abs = 0 ∧ m2.getOcc src = none) ∨
          m2.getOcc src = some (NodeOccupant.stockpile v abs)) := by
  intro fuel
  induction fuel with
  | zero =>
    intro left m acc m2 log h hacc
    cases h
    intro e he
    rcases hacc e he with ⟨src, abs, he1, hd⟩
    refine ⟨src, abs, he1, ?_⟩
    rcases hd with ⟨h0, hocc⟩ | ⟨hocc, _⟩
    · exact Or.inl ⟨h0, hocc⟩
    · exact Or.inr hocc
  | succ fuel ih =>
    intro left m acc m2 log h hacc
    cases left with
    | zero =>
      cases h
      intro e he
      rcases hacc e he with ⟨src, abs, he1, hd⟩
      refine ⟨src, abs, he1, ?_⟩
      rcases hd with ⟨h0, hocc⟩ | ⟨hocc, _⟩
      · exact Or.inl ⟨h0, hocc⟩
      · exact Or.inr hocc
    | succ left =>
      simp only [consumeLoop] at h
      split at h
      · cases h
      · rename_i nid hl
        split at h
        · rename_i v' a heq
          obtain ⟨a2, ha2⟩ := get_lowest_occ m gid v nid hl
          rw [heq] at ha2
          cases ha2
          apply ih _ _ _ _ _ h
          intro e he
          rcases List.mem_append.mp he with hein | heun
          · rcases hacc e hein with ⟨src, abs, he1, hd⟩
            rcases hd with ⟨h0, hocc⟩ | ⟨_, hl0⟩
            · refine ⟨src, abs, he1, Or.inl ⟨h0, ?_⟩⟩
              have hsrcnid : ¬nid = src := by
                intro hcon
                rw [← hcon, heq] at hocc
                cases hocc
              split
              · rw [getOcc_removeOcc, if_neg hsrcnid]
                exact hocc
              · rw [getOcc_setOcc, if_neg hsrcnid]
                exact hocc
            · exact absurd hl0 (Nat.succ_ne_zero left)
          · have hee : e = AutoAction.consumeResource nid cid v (a - min (left + 1) a)
                (Int.ofNat req) := by simpa using heun
            refine ⟨nid, a - min (left + 1) a, hee, ?_⟩
            by_cases hz : a - min (left + 1) a = 0
            · refine Or.inl ⟨hz, ?_⟩
              rw [if_pos hz, getOcc_removeOcc, if_pos rfl]
            · refine Or.inr ?_
              rw [if_neg hz, getOcc_setOcc, if_pos rfl]
              exact ⟨rfl, by omega⟩
        · cases h

/-! Invariant of the allocation loop of `add_resource_in_group`. -/

theorem addLoop_spec (ids : List NodeId) (v : ResourceVariant) (m0 : Map) :
    ∀ (fuel left : Nat) (m : Map) (acc : List (NodeId × Nat × Int)),
      AddInv m0 m →
      (∀ r ∈ acc, m0.getOcc r.1 ≠ none → r.2.1 ≤ 100) →
      AddInv m0 (addLoop ids v fuel left m acc).1 ∧
      (∀ r ∈ (addLoop ids v fuel left m acc).2, m0.getOcc r.1 ≠ none → r.2.1 ≤ 100) := by
  intro fuel
  induction fuel with
  | zero => intro left m acc hInv hAcc; exact ⟨hInv, hAcc⟩
  | succ fuel ih =>
    intro left m acc hInv hAcc
    cases left with
    | zero => exact ⟨hInv, hAcc⟩
    | succ left =>
      simp only [addLoop]
      split
      · rename_i nid a hmax
        have hsel : m.getOcc nid = some (NodeOccupant.stockpile v a) ∧ a < MAX_STOCKPILE := by
          rcases maxByFold_mem _ _ _ hmax with hmem | hbest
          · rcases List.mem_filterMap.mp hmem with ⟨n, _, hn⟩
            split at hn
            · rename_i v' a' heq
              split at hn
              · rename_i hcond
                cases hn
                exact ⟨hcond.1 ▸ heq, hcond.2⟩
              · cases hn
            · cases hn
          · cases hbest
        apply ih
        · intro n o0 ho0
          rcases hInv n o0 ho0 with ⟨o1, ho1, hd⟩
          by_cases hn : nid = n
          · subst hn
            have ho1a : o1 = NodeOccupant.stockpile v a := by
              rw [ho1] at hsel
              exact Option.some_inj.mp hsel.1
            refine ⟨NodeOccupant.stockpile v
              (a + min (left + 1) (MAX_STOCKPILE - a)), ?_, Or.inr ?_⟩
            · rw [getOcc_setOcc, if_pos rfl]
            · have hle : a + min (left + 1) (MAX_STOCKPILE - a) ≤ 100 := by
                have ha100 := hsel.2
                unfold MAX_STOCKPILE at ha100 ⊢
                omega
              rcases hd with rfl | ⟨kv, a0, a1, hoeq, ho1eq, _⟩
              · exact ⟨v, a, _, ho1a, rfl, hle⟩
              · rw [ho1a] at ho1eq
                cases ho1eq
                exact ⟨v, a0, _, hoeq, rfl, hle⟩
          · refine ⟨o1, ?_, hd⟩
            rw [getOcc_setOcc, if_neg hn]
            exact ho1
        · intro r hr
          rcases List.mem_append.mp hr with hrin | hrun
          · exact hAcc r hrin
          · have hre : r = (nid, min (left + 1) (MAX_STOCKPILE - a) + a,
                Int.ofNat (min (left + 1) (MAX_STOCKPILE - a))) := by simpa using hrun
            subst hre
            intro _
            have ha100 := hsel.2
            show min (left + 1) (MAX_STOCKPILE - a) + a ≤ 100
            unfold MAX_STOCKPILE at ha100 ⊢
            omega
      · split
        · rename_i emptyId hfind
          have hocc_empty : m.getOcc emptyId = none := by
            have := List.find?_some hfind
            simpa using this
          apply ih
          · intro n o0 ho0
            rcases hInv n o0 ho0 with ⟨o1, ho1, hd⟩
            have hne : ¬emptyId = n := by
              intro hc
              rw [hc, ho1] at hocc_empty
              cases hocc_empty
            refine ⟨o1, ?_, hd⟩
            rw [getOcc_setOcc, if_neg hne]
            exact ho1
          · intro r hr
            rcases List.mem_append.mp hr with hrin | hrun
            · exact hAcc r hrin
            · have hre : r = (emptyId, left + 1, Int.ofNat (left + 1)) := by simpa using hrun
              subst hre
              intro hne0
              exfalso
              cases ho0 : m0.getOcc emptyId with
              | none => exact hne0 ho0
              | some o0 =>
                rcases hInv emptyId o0 ho0 with ⟨o1, ho1, _⟩
                rw [ho1] at hocc_empty
                cases hocc_empty
        · exact ih _ _ _ hInv hAcc

/-! Bunch and edge-filter helper lemmas. -/

theorem mem_allVariants (v : ResourceVariant) : v ∈ allVariants := by
  cases v <;> simp [allVariants]

theorem notTouch_eq_not_incident (g : GroupId) (e : GroupId × GroupId) :
    (decide (e.1 ≠ g) && decide (e.2 ≠ g)) = !(incident g e) := by
  by_cases h1 : e.1 = g <;> by_cases h2 : e.2 = g <;> simp [incident, h1, h2]

theorem filter_rewrite_incident (E : List (GroupId × GroupId)) (g d : GroupId) :
    ((E.filter fun e => decide (e.1 ≠ g) && decide (e.2 ≠ g)) ++ [(g, d)]).filter
      (incident g) = [(g, d)] := by
  rw [List.filter_append]
  have h1 : (E.filter fun e => decide (e.1 ≠ g) && decide (e.2 ≠ g)).filter (incident g)
      = [] := by
    rw [List.filter_eq_nil_iff]
    intro e he
    have hmem := List.of_mem_filter he
    rw [notTouch_eq_not_incident] at hmem
    simp at hmem
    simp [hmem]
  rw [h1]
  simp [incident]

theorem filter_rewrite_notinc (E : List (GroupId × GroupId)) (g d : GroupId) :
    ((E.filter fun e => decide (e.1 ≠ g) && decide (e.2 ≠ g)) ++ [(g, d)]).filter
      (fun e => !(incident g e)) = E.filter (fun e => !(incident g e)) := by
  rw [List.filter_append]
  have h2 : (([(g, d)] : List (GroupId × GroupId)).filter fun e => !(incident g e)) = [] := by
    simp [incident]
  rw [h2, List.append_nil]
  have hfun : (fun (e : GroupId × GroupId) => decide (e.1 ≠ g) && decide (e.2 ≠ g)) =
      fun e => !(incident g e) := funext fun e => notTouch_eq_not_incident g e
  rw [hfun]
  simp [List.filter_filter]

/-! The claims. -/

/-- C1 counterexample: `add_resource(group, kind, 150)` does not return
normally — the source opens with `assert!(amt <= 100)`, so the 150-unit
call of the claim panics (modelled as `none`) even on a group whose piles
could absorb 100 and which has an empty node. -/
theorem c1_overflow_call_panics :
    addResourceInGroup c1map 0 ResourceVariant.material 150 = none := rfl

/-- C1 (amended): for an in-range call (amount at most 100, as the
assertion requires) whose amount exceeds the free top-up capacity of the
existing piles, the call returns normally: the capacity (here 50 of 100)
is distributed over the top-up path and the entire remainder is placed
uncapped into the empty node in one allocation record, so the group
stores everything. -/
theorem c1_overflow_into_empty_uncapped :
    addResourceInGroup c1map2 0 ResourceVariant.material 100 =
      some ([(0, 100, 50), (1, 50, 50)], c1res) ∧
    (c1res.get_group_bunch 0).map (fun b => (b.res ResourceVariant.material).getD 0) =
      some 150 :=
  ⟨rfl, rfl⟩

/-- C2: after a full turn resolution in which the eat step drives the home
group's only food stockpile from 1 to 0, the node still maps to a
`Stockpile(Food, 0)` — the eat path (and likewise the fuel path)
decrements without pruning, contradicting the claimed invariant; the
turn otherwise resolves normally. -/
theorem c2_zero_food_stockpile_persists :
    (turnBody c2state).map (fun o => o.map.getOcc 0) =
      some (some (NodeOccupant.stockpile ResourceVariant.food 0)) ∧
    (turnBody c2state).map (fun o => o.app) = some AppState.gameplay :=
  ⟨rfl, rfl⟩

/-- C3: every `ConsumeResource` entry emitted while consuming one
requested `(kind, req)` pair carries the full requested amount `req` as
its signed delta (never the per-step clamp), and its absolute value is the
post-subtraction amount remaining at its source: in the resulting map the
source node either was emptied and removed (`abs = 0`) or still stores
exactly `abs` of the kind. -/
theorem c3_consume_delta_full_request (m : Map) (gid : GroupId) (cid : NodeId)
    (v : ResourceVariant) (req : Nat) (m2 : Map) (log : List AutoAction)
    (h : consumeRequest m gid cid v req = some (m2, log)) :
    ∀ e ∈ log, ∃ src abs, e = AutoAction.consumeResource src cid v abs (Int.ofNat req) ∧
      ((abs = 0 ∧ m2.getOcc src = none) ∨
        m2.getOcc src = some (NodeOccupant.stockpile v abs)) :=
  consumeLoop_spec gid cid v req MAX_TURN_ITERS req m [] m2 log h
    (by intro e he; cases he)

/-- C3 witness: consuming a request of 5 food from piles of 3 and 4 emits
a second entry whose actual transfer is 2 but whose delta is the full 5;
the theorem applies to it. -/
theorem c3_consume_delta_full_request_witness :
    ∃ src abs,
      AutoAction.consumeResource 1 7 ResourceVariant.food 2 (Int.ofNat 5) =
        AutoAction.consumeResource src 7 ResourceVariant.food abs (Int.ofNat 5) ∧
      ((abs = 0 ∧ c3mapAfter.getOcc src = none) ∨
        c3mapAfter.getOcc src = some (NodeOccupant.stockpile ResourceVariant.food abs)) :=
  c3_consume_delta_full_request c3map 0 7 ResourceVariant.food 5 c3mapAfter c3log rfl
    (AutoAction.consumeResource 1 7 ResourceVariant.food 2 (Int.ofNat 5)) (by decide)

/-- C4 counterexample: a turn that transitions to `GameWon` although the
home group's pooled food after the whole resolution is exactly 100, not
more — the thresholds are checked against the amounts sampled before the
eat step. -/
theorem c4_won_despite_post_food_100 :
    (turnBody c4state).map (fun o => o.app) = some AppState.gameWon ∧
    (turnBody c4state).map (fun o => foodOf o.map) = some 100 :=
  ⟨rfl, rfl⟩

/-- C4 (amended): a resolved turn ends in `GameWon` if and only if the
home group's pooled fusion fuel and food both exceed 100 when sampled on
the post-resolution-loop map, before the survival-food and travel-fuel
consumption. -/
theorem c4_won_iff_presampled_thresholds (st : GState) (m1 : Map) (log1 : List AutoAction)
    (out : TurnOut)
    (hres : resolveLoop MAX_TURN_ITERS (decCooldowns st.map)
      (collectCands (decCooldowns st.map)) [] = some (m1, log1))
    (hturn : turnBody st = some out) :
    (out.app = AppState.gameWon ↔ 100 < fusionOf m1 ∧ 100 < foodOf m1) := by
  unfold turnBody at hturn
  rw [hres] at hturn
  exact afterResolve_app m1 st.ship log1 (st.turns + 1) out hturn

/-- C4 witness: the amended theorem applied to a concrete winning turn. -/
theorem c4_won_iff_presampled_thresholds_witness :
    (resolveLoop MAX_TURN_ITERS (decCooldowns c4wstate.map)
      (collectCands (decCooldowns c4wstate.map)) [] = some (c4wm1, [])) ∧
    turnBody c4wstate = some c4wout ∧
    (c4wout.app = AppState.gameWon ↔ 100 < fusionOf c4wm1 ∧ 100 < foodOf c4wm1) :=
  ⟨rfl, rfl, c4_won_iff_presampled_thresholds c4wstate c4wm1 [] c4wout rfl rfl⟩

/-- C5 counterexample: a turn in which a ship move executes (the log
contains the `ShipMove` entry and fuel was consumed) yet at the end of
resolution the ship's current group is still 1, not the planned
destination 2 — resolution does not update `orbiting_group`. -/
theorem c5_orbit_unchanged_at_resolution_end :
    (turnBody c5cst).map (fun o => o.ship.orbiting) = some 1 ∧
    (turnBody c5cst).map (fun o => decide (AutoAction.shipMove 1 2 ∈ o.log)) = some true :=
  ⟨rfl, rfl⟩

/-- C5 (amended): when a move executes, the end-of-resolution state still
has the ship's pre-move current group (only the plan is cleared); the
`ShipMove` entry is emitted during resolution, and the ship's current
group becomes the destination only when the playback layer processes that
entry (`syncShipMove`). -/
theorem c5_orbit_updated_by_playback (st : GState) (m1 : Map) (log1 : List AutoAction)
    (out : TurnOut) (d : GroupId)
    (hres : resolveLoop MAX_TURN_ITERS (decCooldowns st.map)
      (collectCands (decCooldowns st.map)) [] = some (m1, log1))
    (hplan : st.ship.plannedMove = some d)
    (hne : d ≠ st.ship.orbiting)
    (hfuel : 0 < fusionOf m1)
    (hturn : turnBody st = some out) :
    out.ship.orbiting = st.ship.orbiting ∧
    AutoAction.shipMove st.ship.orbiting d ∈ out.log ∧
    syncShipMove (AutoAction.shipMove st.ship.orbiting d) out.ship =
      { out.ship with orbiting := d } := by
  unfold turnBody at hturn
  rw [hres] at hturn
  obtain ⟨hship, hmem, _⟩ :=
    afterResolve_move m1 st.ship log1 (st.turns + 1) out d hplan hne hfuel hturn
  exact ⟨by rw [hship], hmem, rfl⟩

/-- C5 witness: the amended theorem applied to a concrete executed move. -/
theorem c5_orbit_updated_by_playback_witness :
    c5wout.ship.orbiting = c5wstate.ship.orbiting ∧
    AutoAction.shipMove c5wstate.ship.orbiting 2 ∈ c5wout.log ∧
    syncShipMove (AutoAction.shipMove c5wstate.ship.orbiting 2) c5wout.ship =
      { c5wout.ship with orbiting := 2 } :=
  c5_orbit_updated_by_playback c5wstate c5wm1 [] c5wout 2 rfl rfl (by decide)
    (by decide) rfl

/-- C6 counterexample: with kind absent from the bunch, a requirement of
0 is not satisfied — `contains` returns false although the claimed
missing-as-zero reading (0 at least 0) would make it true. -/
theorem c6_missing_kind_zero_req_fails :
    Bunch.contains Bunch.empty (Bunch.single ResourceVariant.power 0) = false ∧
    0 ≤ (Bunch.empty.res ResourceVariant.power).getD 0 :=
  ⟨rfl, Nat.le_refl 0⟩

/-- C6 (amended): `contains(A, single(k, n))` holds iff A physically
stores an entry for k whose amount is at least n; it holds at exact
equality, but a missing kind fails for every n, including n = 0. -/
theorem c6_contains_single_iff (A : Bunch) (k : ResourceVariant) (n : Nat) :
    Bunch.contains A (Bunch.single k n) = true ↔ ∃ mk, A.res k = some mk ∧ n ≤ mk := by
  unfold Bunch.contains
  rw [List.all_eq_true]
  constructor
  · intro h
    have hk := h k (mem_allVariants k)
    simp only [Bunch.single, if_pos rfl] at hk
    cases hc : A.res k with
    | none => rw [hc] at hk; cases hk
    | some cur =>
      rw [hc] at hk
      exact ⟨cur, rfl, by simpa using hk⟩
  · rintro ⟨mk, hmk, hnm⟩ v _
    by_cases hvk : v = k
    · subst hvk
      simp [Bunch.single, hmk, hnm]
    · simp [Bunch.single, hvk]

/-- C7: on any successful call of `add_resource_in_group`, every
allocation record that targets a node occupied before the call records an
amount of at most 100, and every stockpile that existed before the call
with amount at most 100 still is a stockpile of the same kind with amount
at most 100 afterwards — only the empty-slot path could ever write an
amount above 100. -/
theorem c7_topup_never_exceeds_cap (m : Map) (g : GroupId) (v : ResourceVariant)
    (amt : Nat) (acts : List (NodeId × Nat × Int)) (m2 : Map)
    (h : addResourceInGroup m g v amt = some (acts, m2)) :
    (∀ r ∈ acts, m.getOcc r.1 ≠ none → r.2.1 ≤ 100) ∧
    (∀ n kv a0, m.getOcc n = some (NodeOccupant.stockpile kv a0) → a0 ≤ 100 →
      ∃ a1, m2.getOcc n = some (NodeOccupant.stockpile kv a1) ∧ a1 ≤ 100) := by
  unfold addResourceInGroup at h
  split at h
  · split at h
    · cases h
    · rename_i ids hg
      cases h
      have hInit : AddInv m m := fun n o0 ho0 => ⟨o0, ho0, Or.inl rfl⟩
      obtain ⟨hInv, hRec⟩ :=
        addLoop_spec ids v m 16 amt m [] hInit (by intro r hr; cases hr)
      refine ⟨hRec, ?_⟩
      intro n kv a0 hocc ha0
      rcases hInv n _ hocc with ⟨o1, ho1, hd⟩
      rcases hd with rfl | ⟨kv', a0', a1, ho0eq, ho1eq, ha1⟩
      · exact ⟨a0, ho1, ha0⟩
      · cases ho0eq
        rw [ho1eq] at ho1
        exact ⟨a1, ho1, ha1⟩
  · cases h

/-- C7 witness: adding 10 material to a pile of 95 tops it up to exactly
100; the theorem applied to that call shows the pre-existing pile ends at
most at 100. -/
theorem c7_topup_never_exceeds_cap_witness :
    ∃ a1, c7after.getOcc 0 = some (NodeOccupant.stockpile ResourceVariant.material a1) ∧
      a1 ≤ 100 :=
  (c7_topup_never_exceeds_cap c7map 0 ResourceVariant.material 10 c7acts c7after rfl).2
    0 ResourceVariant.material 95 rfl (by decide)

/-- C8: while the previous turn's action log has undrained entries or an
entry still playing, the `turn` system returns with every state component
unchanged and emits nothing; no queue exists in which the signal could be
retained. -/
theorem c8_busy_gate_drops_signal (auto : AutoActions) (st : GState)
    (h : auto.actions ≠ [] ∨ auto.current ≠ none) :
    turnSystem auto st = some ⟨st.map, st.ship, st.turns, [], AppState.gameplay⟩ := by
  unfold turnSystem
  have hdone : auto.done = false := by
    unfold AutoActions.done
    rcases h with h | h
    · rcases ha : auto.actions with _ | ⟨a, as⟩
      · exact absurd ha h
      · simp [ha]
    · rcases hc : auto.current with _ | c
      · exact absurd hc h
      · simp [hc]
  rw [hdone]
  simp

/-- C8 witness: the busy gate applied to a queue holding one undrained
entry. -/
theorem c8_busy_gate_drops_signal_witness :
    turnSystem c8auto c8state =
      some ⟨c8state.map, c8state.ship, c8state.turns, [], AppState.gameplay⟩ :=
  c8_busy_gate_drops_signal c8auto c8state (Or.inl (by decide))

/-- C9: after an executed ship move, the edge set restricted to edges
touching the ship's own group is exactly the single edge (own group,
destination), and the edges not touching the own group are exactly those
of the pre-turn map. -/
theorem c9_adjacency_rewritten_to_destination (st : GState) (m1 : Map)
    (log1 : List AutoAction) (out : TurnOut) (d : GroupId)
    (hres : resolveLoop MAX_TURN_ITERS (decCooldowns st.map)
      (collectCands (decCooldowns st.map)) [] = some (m1, log1))
    (hplan : st.ship.plannedMove = some d)
    (hne : d ≠ st.ship.orbiting)
    (hfuel : 0 < fusionOf m1)
    (hturn : turnBody st = some out) :
    out.map.edges.filter (incident st.ship.own) = [(st.ship.own, d)] ∧
    out.map.edges.filter (fun e => !(incident st.ship.own e)) =
      st.map.edges.filter (fun e => !(incident st.ship.own e)) := by
  unfold turnBody at hturn
  rw [hres] at hturn
  obtain ⟨_, _, hedges⟩ :=
    afterResolve_move m1 st.ship log1 (st.turns + 1) out d hplan hne hfuel hturn
  have hm1 : m1.edges = st.map.edges :=
    resolveLoop_edges MAX_TURN_ITERS (decCooldowns st.map)
      (collectCands (decCooldowns st.map)) [] m1 log1 hres
  rw [hedges, hm1]
  exact ⟨filter_rewrite_incident _ _ _, filter_rewrite_notinc _ _ _⟩

/-- C9 witness: the adjacency rewrite applied to a concrete executed
move: edge (0, 1) is replaced by (0, 2). -/
theorem c9_adjacency_rewritten_witness :
    c9wout.map.edges.filter (incident c9wstate.ship.own) = [(c9wstate.ship.own, 2)] ∧
    c9wout.map.edges.filter (fun e => !(incident c9wstate.ship.own e)) =
      c9wstate.map.edges.filter (fun e => !(incident c9wstate.ship.own e)) :=
  c9_adjacency_rewritten_to_destination c9wstate c9wm1 [] c9wout 2 rfl rfl (by decide)
    (by decide) rfl

/-- C10: a whole-stockpile manual move onto a same-kind occupied
destination sets the destination to `min(from + to, 100)` and removes the
source occupant entirely, so any excess above 100 is destroyed. -/
theorem c10_move_all_clamps_and_removes_source (m : Map) (k : ResourceVariant)
    (a b : Nat) (fromId toId : NodeId)
    (hne : ¬fromId = toId)
    (hf : m.getOcc fromId = some (NodeOccupant.stockpile k a))
    (ht : m.getOcc toId = some (NodeOccupant.stockpile k b)) :
    (moveStockpile m fromId toId false).1.getOcc toId =
      some (NodeOccupant.stockpile k (min (a + b) 100)) ∧
    (moveStockpile m fromId toId false).1.getOcc fromId = none := by
  have hmove : moveStockpile m fromId toId false =
      ((m.removeOcc fromId).setOcc toId (NodeOccupant.stockpile k (min (a + b) 100)),
       [AutoAction.consumeResource fromId toId k 0 (Int.ofNat a),
        AutoAction.produceResource toId toId k (min (a + b) 100) (Int.ofNat a)]) := by
    unfold moveStockpile
    rw [hf, ht]
    simp
  rw [hmove]
  constructor
  · rw [getOcc_setOcc, if_pos rfl]
  · rw [getOcc_setOcc, if_neg (fun hc => hne hc.symm), getOcc_removeOcc, if_pos rfl]

/-- C10 witness: moving all of an 80-pile onto a same-kind 50-pile leaves
the destination at 100 (30 units destroyed) and the source empty. -/
theorem c10_move_all_clamps_witness :
    (moveStockpile c10map 0 1 false).1.getOcc 1 =
      some (NodeOccupant.stockpile ResourceVariant.material 100) ∧
    (moveStockpile c10map 0 1 false).1.getOcc 0 = none :=
  c10_move_all_clamps_and_removes_source c10map ResourceVariant.material 80 50 0 1
    (by decide) rfl rfl

end LD54
